import Mathlib

/-!
Shallow embedding of the codescan DLP engine (src/backend), restricted to the
parts the claims are about: the similarity matcher, the sequential scanner
pipeline, the in-memory progress store, the SQLite and Redis storage backends,
the indexer skip logic, the glob-based ignore matcher, and the parsing of id
strings.

Modelling conventions: Python floats are modelled as rationals; the
cosine-similarity score vectors computed by the external numerics libraries
are inputs of the model (one primary and one secondary score per indexed
vector); wall-clock timestamps are ticks of a Nat counter carried by the
store state.
-/

namespace Codescan

/-- Configuration record for similarity matching
(src/backend/similarity_config.py, `SimilarityConfig`), restricted to the
fields the matcher and scanner read. Defaults are the medium preset. -/
structure SimilarityConfig where
  similarity_threshold : ℚ := 65/100
  high_confidence_threshold : ℚ := 85/100
  exact_match_threshold : ℚ := 98/100
  ngram_range_min : ℤ := 1
  ngram_range_max : ℤ := 3
  require_multiple_matches : Bool := true
  min_content_length : ℕ := 50
  deriving Repr, DecidableEq

/-- Translation of `get_match_type` (src/backend/scanner.py lines 20-28):
classify a score against the configured thresholds. -/
def getMatchType (config : SimilarityConfig) (score : ℚ) : String :=
  if config.exact_match_threshold ≤ score then "exact"
  else if config.high_confidence_threshold ≤ score then "high_confidence"
  else "similarity"

/-- Widened secondary n-gram window lower bound, `max(1, ngram_range_min - 1)`
(scanner.py line 63). -/
def secondaryNgramMin (config : SimilarityConfig) : ℤ :=
  max 1 (config.ngram_range_min - 1)

/-- Widened secondary n-gram window upper bound, `min(5, ngram_range_max + 1)`
(scanner.py line 64). -/
def secondaryNgramMax (config : SimilarityConfig) : ℤ :=
  min 5 (config.ngram_range_max + 1)

/-- Primary candidate selection (scanner.py line 55): indices of the primary
cosine scores that reach `similarity_threshold`, with their scores. -/
def primaryCandidates (config : SimilarityConfig) (primaryScores : List ℚ) :
    List (ℕ × ℚ) :=
  primaryScores.enum.filter (fun c => config.similarity_threshold ≤ c.2)

/-- Combined gate for the secondary validation stage (scanner.py lines 61
and 66): `require_multiple_matches` is on, the candidate text has at least
200 characters, and the widened n-gram window differs from the configured
one. The two nested Python conditionals are combined into one Bool. -/
def validationApplies (config : SimilarityConfig) (contentLen : ℕ) : Bool :=
  config.require_multiple_matches && decide (200 ≤ contentLen) &&
    (decide (secondaryNgramMin config ≠ config.ngram_range_min) ||
      decide (secondaryNgramMax config ≠ config.ngram_range_max))

/-- Secondary validation of primary candidates (scanner.py lines 80-88):
keep a candidate when its secondary score is at least `0.8 ×
similarity_threshold`, and replace its score by the mean of primary and
secondary. Out-of-range indexing (impossible in the source, where both score
vectors come from the same matrix) defaults to 0. -/
def validateCandidates (config : SimilarityConfig) (secondaryScores : List ℚ)
    (candidates : List (ℕ × ℚ)) : List (ℕ × ℚ) :=
  candidates.filterMap (fun c =>
    let s := secondaryScores.getD c.1 0
    if config.similarity_threshold * (8/10) ≤ s then some (c.1, (c.2 + s) / 2)
    else none)

/-- Stable descending insertion by score into an already sorted list, placing
the new element after all elements of larger-or-equal score. -/
def insertByScoreDesc (x : ℕ × ℚ × String) :
    List (ℕ × ℚ × String) → List (ℕ × ℚ × String)
  | [] => [x]
  | y :: ys => if y.2.1 < x.2.1 then x :: y :: ys else y :: insertByScoreDesc x ys

/-- Stable sort by score descending, the semantics of
`matches.sort(key=lambda x: x[1], reverse=True)` (scanner.py line 96). -/
def sortByScoreDesc (l : List (ℕ × ℚ × String)) : List (ℕ × ℚ × String) :=
  l.foldl (fun acc x => insertByScoreDesc x acc) []

/-- Translation of `compute_similarity_with_validation` (scanner.py lines
31-101). The primary and secondary cosine score vectors against the
preloaded matrix are inputs; `contentLen` is the length of the candidate
text. Returns `(indexed_id, score, match_type)` triples sorted by score
descending, truncated to the top 5. -/
def computeSimilarityWithValidation (config : SimilarityConfig)
    (contentLen : ℕ) (primaryScores secondaryScores : List ℚ)
    (indexedIds : List ℕ) : List (ℕ × ℚ × String) :=
  let candidates := primaryCandidates config primaryScores
  if candidates.isEmpty then []
  else
    let candidates :=
      if validationApplies config contentLen then
        validateCandidates config secondaryScores candidates
      else candidates
    let ms := candidates.map (fun c =>
      (indexedIds.getD c.1 0, c.2, getMatchType config c.2))
    (sortByScoreDesc ms).take 5

/-- Specification-side description of the validated candidate set (spec
section 4.E): index `idx` is retained with the mean of its two scores
exactly when its primary score passes `similarity_threshold` and its
secondary score is at least `0.8 × similarity_threshold`. Used to state the
refinement in claim C6. -/
def validatedCandidatesSpec (config : SimilarityConfig)
    (primaryScores secondaryScores : List ℚ) : List (ℕ × ℚ) :=
  (List.range primaryScores.length).filterMap (fun idx =>
    let p := primaryScores.getD idx 0
    let s := secondaryScores.getD idx 0
    if config.similarity_threshold ≤ p ∧ config.similarity_threshold * (8/10) ≤ s
    then some (idx, (p + s) / 2) else none)

/-! ## Progress store (src/backend/progress_store.py) -/

/-- Task progress record (`TaskProgress` dataclass, progress_store.py lines
10-46). Timestamps are Nat ticks. -/
structure TaskProgress where
  task_id : String
  task_type : String := "scan"
  status : String := "pending"
  total_files : ℕ := 0
  files_processed : ℕ := 0
  matches_found : ℕ := 0
  files_indexed : ℕ := 0
  current_file : String := ""
  started_at : ℕ := 0
  completed_at : Option ℕ := none
  error_message : Option String := none
  deriving Repr, DecidableEq

/-- One subscriber queue of published snapshots. The source uses a default
`asyncio.Queue()` which is unbounded, so `put_nowait` never raises
`QueueFull` and no snapshot is dropped. -/
abbrev SnapshotQueue := List TaskProgress

/-- State of the process-wide `ProgressStore` (progress_store.py lines
53-148): the task map, the per-task subscriber queues, and the cancelled id
set, each modelled as a list in insertion order. -/
structure ProgressStore where
  tasks : List (String × TaskProgress) := []
  subscribers : List (String × List SnapshotQueue) := []
  cancelled : List String := []
  deriving Repr, DecidableEq

/-- Lookup in an association list by key, first match (Python dict read). -/
def alistLookup {α : Type} (l : List (String × α)) (k : String) : Option α :=
  (l.find? (fun p => p.1 = k)).map (fun p => p.2)

/-- Write into an association list: replace the binding when the key is
present, else append (Python dict assignment). -/
def alistSet {α : Type} : List (String × α) → String → α → List (String × α)
  | [], k, v => [(k, v)]
  | p :: rest, k, v =>
    if p.1 = k then (k, v) :: rest else p :: alistSet rest k v

/-- Translation of `ProgressStore._notify_subscribers` (progress_store.py
lines 128-136): append a snapshot of the task to every subscriber queue. -/
def notifySubscribers (ps : ProgressStore) (task_id : String) : ProgressStore :=
  match alistLookup ps.tasks task_id with
  | none => ps
  | some t =>
    match alistLookup ps.subscribers task_id with
    | none => ps
    | some queues =>
      { ps with subscribers :=
          alistSet ps.subscribers task_id (queues.map (fun q => q ++ [t])) }

/-- Translation of `ProgressStore.create_task` (progress_store.py lines
85-90): register a fresh record and clear the subscriber list for the id. -/
def createTask (ps : ProgressStore) (task_id task_type : String) :
    ProgressStore :=
  { ps with
    tasks := alistSet ps.tasks task_id
      { task_id := task_id, task_type := task_type }
    subscribers := alistSet ps.subscribers task_id [] }

/-- Translation of `ProgressStore.update_task` (progress_store.py lines
104-113). The keyword arguments are modelled as a record update function;
`update_task` applies it only when the task exists, then notifies the
subscribers, and returns the updated record or `None`. -/
def updateTask (ps : ProgressStore) (task_id : String)
    (upd : TaskProgress → TaskProgress) :
    Option TaskProgress × ProgressStore :=
  match alistLookup ps.tasks task_id with
  | none => (none, ps)
  | some t =>
    let t2 := upd t
    let ps2 := { ps with tasks := alistSet ps.tasks task_id t2 }
    (some t2, notifySubscribers ps2 task_id)

/-- Translation of `ProgressStore.cancel_task` (progress_store.py lines
61-67): when the task exists, add its id to the cancelled set and set its
status to cancelling. -/
def cancelTask (ps : ProgressStore) (task_id : String) : Bool × ProgressStore :=
  match alistLookup ps.tasks task_id with
  | some _ =>
    let ps1 := { ps with cancelled :=
      if ps.cancelled.contains task_id then ps.cancelled
      else ps.cancelled ++ [task_id] }
    (true, (updateTask ps1 task_id (fun t => { t with status := "cancelling" })).2)
  | none => (false, ps)

/-- Translation of `ProgressStore.is_cancelled` (progress_store.py lines
69-71). -/
def isCancelled (ps : ProgressStore) (task_id : String) : Bool :=
  ps.cancelled.contains task_id

/-! ## Sequential scanner pipeline (src/backend/scanner.py) -/

/-- Observations the sequential scanner makes of one walked file: the result
of the digest lookup (`find_by_hash` / the `file_hash` query, id of the first
matching indexed row), `is_text_file`, the length and stripped length of the
extracted text, and the two cosine score vectors against the preloaded
matrix. -/
structure ScanFileObs where
  path : String
  exactMatchId : Option ℕ
  isText : Bool
  contentLen : ℕ
  strippedLen : ℕ
  primaryScores : List ℚ
  secondaryScores : List ℚ
  deriving Repr, DecidableEq

/-- A scan-result row as added by the scanner via `db.add(ScanResult(...))`
(models.py `ScanResult`, fields the scanner writes). -/
structure StoredScanResult where
  scan_id : String
  file_path : String
  match_type : String
  score : ℚ
  matched_file_id : ℕ
  deriving Repr, DecidableEq

/-- Running state of one sequential scan: progress store, the scan results
added to the session, and the two local counters of the loop. -/
structure ScanRun where
  ps : ProgressStore
  results : List StoredScanResult
  files_scanned : ℕ
  matches_found : ℕ
  deriving Repr, DecidableEq

/-- One iteration of the walk loop of `_scan_directory_sequential`
(scanner.py lines 469-535, SQLite branch). The call
`update_scan(files_scanned=…, current_file=…)` only writes `current_file`:
`TaskProgress` has no `files_scanned` attribute, so that keyword fails the
`hasattr` check inside `update_task` (the local counter still increments).
Per-file exceptions, which store nothing, are elided. -/
def scanFileStep (config : SimilarityConfig) (scan_id : String)
    (indexedIds : List ℕ) (st : ScanRun) (f : ScanFileObs) : ScanRun :=
  let fs := st.files_scanned + 1
  let ps1 := (updateTask st.ps scan_id (fun t => { t with current_file := f.path })).2
  match f.exactMatchId with
  | some mid =>
    let mf := st.matches_found + 1
    { ps := (updateTask ps1 scan_id (fun t => { t with matches_found := mf })).2
      results := st.results ++ [⟨scan_id, f.path, "exact", 1, mid⟩]
      files_scanned := fs
      matches_found := mf }
  | none =>
    if (!indexedIds.isEmpty) && f.isText then
      if f.contentLen = 0 ∨ f.strippedLen < config.min_content_length then
        { st with ps := ps1, files_scanned := fs }
      else
        match computeSimilarityWithValidation config f.contentLen
            f.primaryScores f.secondaryScores indexedIds with
        | [] => { st with ps := ps1, files_scanned := fs }
        | (mid, score, mt) :: _ =>
          let mf := st.matches_found + 1
          { ps := (updateTask ps1 scan_id (fun t => { t with matches_found := mf })).2
            results := st.results ++ [⟨scan_id, f.path, mt, score, mid⟩]
            files_scanned := fs
            matches_found := mf }
    else { st with ps := ps1, files_scanned := fs }

/-- Translation of `_scan_directory_sequential` (scanner.py lines 423-548,
SQLite branch). The walk sequence of candidate files and the ids of the
indexed vectors that loaded into the matrix are inputs; the matrix is `None`
exactly when `indexedIds` is empty. The loop contains no cancellation check;
on falling out of the loop the status is unconditionally set to completed. -/
def scanDirectorySequential (config : SimilarityConfig) (scan_id : String)
    (files : List ScanFileObs) (indexedIds : List ℕ) (ps : ProgressStore) :
    ScanRun :=
  let ps := (updateTask ps scan_id (fun t => { t with status := "counting" })).2
  let ps := (updateTask ps scan_id (fun t =>
    { t with status := "scanning", total_files := files.length })).2
  let st := files.foldl (scanFileStep config scan_id indexedIds) ⟨ps, [], 0, 0⟩
  { st with ps := (updateTask st.ps scan_id (fun t =>
      { t with status := "completed", completed_at := some 1,
               current_file := "" })).2 }

/-! ## SQLite storage backend (src/backend/storage_sqlite.py, models.py) -/

/-- Row of the `indexed_files` table (models.py `IndexedFile`). The serialized
vector blob is modelled as a list of bytes. -/
structure IndexedFileRow where
  id : ℕ
  path : String
  filename : String
  file_hash : String
  vector : Option (List ℕ)
  last_modified : ℚ
  indexed_at : ℕ
  deriving Repr, DecidableEq

/-- Row of the `scan_results` table (models.py `ScanResult`), the fields the
storage layer writes. -/
structure ScanResultRow where
  id : ℕ
  scan_id : String
  file_path : String
  match_type : String
  score : ℚ
  matched_file_id : ℕ
  deriving Repr, DecidableEq

/-- State of the SQLite store: the two tables the claims are about, the id
sequence, and a tick clock standing for `datetime.now` / `func.now`. -/
structure SQLiteDB where
  files : List IndexedFileRow := []
  results : List ScanResultRow := []
  nextId : ℕ := 1
  nextResultId : ℕ := 1
  now : ℕ := 0
  deriving Repr, DecidableEq

/-- Update of the first row whose path matches, the row returned by
`query(IndexedFile).filter(IndexedFile.path == path).first()`; mirrors the
update branch of `add_or_update_indexed_file` (storage_sqlite.py lines
65-71). Returns the updated row and table, or `none` when no row matches. -/
def updateFirstByPath (path file_hash : String) (vector : Option (List ℕ))
    (last_modified : ℚ) (now : ℕ) :
    List IndexedFileRow → Option (IndexedFileRow × List IndexedFileRow)
  | [] => none
  | r :: rs =>
    if r.path = path then
      let r2 := { r with file_hash := file_hash, vector := vector,
                         last_modified := last_modified, indexed_at := now }
      some (r2, r2 :: rs)
    else
      (updateFirstByPath path file_hash vector last_modified now rs).map
        (fun q => (q.1, r :: q.2))

/-- Translation of `SQLiteStorageBackend.add_or_update_indexed_file`
(storage_sqlite.py lines 55-83): path-keyed upsert, refreshing the digest,
vector, mtime and `indexed_at` of an existing row, else inserting a fresh
row. Each call advances the clock. -/
def addOrUpdateIndexedFile (db : SQLiteDB) (path filename file_hash : String)
    (vector : Option (List ℕ)) (last_modified : ℚ) :
    IndexedFileRow × SQLiteDB :=
  match updateFirstByPath path file_hash vector last_modified db.now db.files with
  | some (r, fs) => (r, { db with files := fs, now := db.now + 1 })
  | none =>
    let r : IndexedFileRow :=
      ⟨db.nextId, path, filename, file_hash, vector, last_modified, db.now⟩
    (r, { db with files := db.files ++ [r], nextId := db.nextId + 1,
                   now := db.now + 1 })

/-- Translation of `SQLiteStorageBackend.get_indexed_file_by_path`
(storage_sqlite.py lines 85-87). -/
def getIndexedFileByPath (db : SQLiteDB) (path : String) :
    Option IndexedFileRow :=
  db.files.find? (fun r => r.path = path)

/-- Translation of `SQLiteStorageBackend.count_indexed_files`
(storage_sqlite.py lines 109-110). -/
def countIndexedFiles (db : SQLiteDB) : ℕ := db.files.length

/-- Count of stored scan-result rows
(`SQLiteStorageBackend.count_scan_results`, storage_sqlite.py lines
160-161). -/
def countScanResults (db : SQLiteDB) : ℕ := db.results.length

/-- Translation of `SQLiteStorageBackend.delete_all_indexed_files`
(storage_sqlite.py lines 120-125): a bulk `query(IndexedFile).delete()`.
The engine never enables SQLite foreign-key enforcement (database.py sets no
pragma) and a bulk query delete bypasses ORM cascades, so the `scan_results`
table is left untouched. Returns the number of deleted files. -/
def sqliteDeleteAllIndexedFiles (db : SQLiteDB) : ℕ × SQLiteDB :=
  (db.files.length, { db with files := [] })

/-! ## Python `int()` parsing of id strings -/

/-- Whitespace accepted around the digits by the CPython `int(str)`
constructor. -/
def isPySpace (c : Char) : Bool :=
  c = ' ' || c = '\t' || c = '\n' || c = '\r' ||
    c = Char.ofNat 11 || c = Char.ofNat 12

/-- Accumulating digit-run parser for `int(str)`: ASCII digits, with single
underscores allowed between digits (PEP 515); anything else fails. -/
def parseDigitsAux (acc : ℕ) : List Char → Option ℕ
  | [] => some acc
  | '_' :: c :: rest =>
    if c.isDigit then parseDigitsAux (acc * 10 + (c.toNat - 48)) rest else none
  | c :: rest =>
    if c.isDigit then parseDigitsAux (acc * 10 + (c.toNat - 48)) rest else none

/-- Digit run of `int(str)`: must be nonempty and start with a digit. -/
def parseDigitRun : List Char → Option ℕ
  | [] => none
  | c :: rest =>
    if c.isDigit then parseDigitsAux (c.toNat - 48) rest else none

/-- Model of the CPython `int(str)` constructor on ASCII input: optional
surrounding whitespace, an optional sign, then a nonempty digit run.
Returns `none` exactly when `int` raises `ValueError`. -/
def pythonInt (s : String) : Option ℤ :=
  let cs := s.toList.dropWhile isPySpace
  let cs := (cs.reverse.dropWhile isPySpace).reverse
  match cs with
  | '+' :: rest => (parseDigitRun rest).map (fun n => (n : ℤ))
  | '-' :: rest => (parseDigitRun rest).map (fun n => -(n : ℤ))
  | rest => (parseDigitRun rest).map (fun n => (n : ℤ))

/-- Translation of `SQLiteStorageBackend.get_indexed_file_by_id`
(storage_sqlite.py lines 89-91): `int(file_id)` then a primary-key lookup.
A file id that is not a decimal-integer string makes `int` raise
`ValueError`, modelled as `Except.error`. -/
def getIndexedFileById (db : SQLiteDB) (file_id : String) :
    Except Unit (Option IndexedFileRow) :=
  match pythonInt file_id with
  | none => Except.error ()
  | some n => Except.ok (db.files.find? (fun r => (r.id : ℤ) = n))

/-- Translation of `SQLiteStorageBackend.delete_indexed_file`
(storage_sqlite.py lines 112-118): `int(file_id)`, then delete the found row
and answer `true`, else answer `false`; a non-integer id string raises. -/
def deleteIndexedFile (db : SQLiteDB) (file_id : String) :
    Except Unit (Bool × SQLiteDB) :=
  match pythonInt file_id with
  | none => Except.error ()
  | some n =>
    match db.files.find? (fun r => (r.id : ℤ) = n) with
    | some r => Except.ok (true, { db with files := db.files.erase r })
    | none => Except.ok (false, db)

/-! ## Redis storage backend (src/backend/storage_redis.py) -/

/-- JSON document stored under a file key by the Redis backend (fields of
`add_or_update_indexed_file`, storage_redis.py lines 269-288). -/
structure RedisFileDoc where
  path : String
  filename : String
  file_hash : String
  last_modified : ℚ
  indexed_at : ℕ
  vector : Option (List ℚ)
  deriving Repr, DecidableEq

/-- JSON document stored under a result key (storage_redis.py lines
441-453). -/
structure RedisResultDoc where
  scan_id : String
  file_path : String
  match_type : String
  score : ℚ
  matched_file_id : String
  deriving Repr, DecidableEq

/-- Slice of the Redis keyspace the claims are about: the documents under
file keys and under result keys. -/
structure RedisDB where
  files : List (String × RedisFileDoc) := []
  results : List (String × RedisResultDoc) := []
  deriving Repr, DecidableEq

/-- Translation of `RedisStorageBackend.delete_all_indexed_files`
(storage_redis.py lines 402-423): deletes every file key and also every
result key; returns the number of file keys. -/
def redisDeleteAllIndexedFiles (db : RedisDB) : ℕ × RedisDB :=
  (db.files.length, { db with files := [], results := [] })

/-! ## Indexer skip logic (src/backend/indexer.py) -/

/-- Basename of a POSIX path, the semantics of `os.path.basename`: the
suffix after the last slash. -/
def basenameOf (p : String) : String :=
  String.mk (p.toList.foldl (fun acc c => if c = '/' then [] else acc ++ [c]) [])

/-- Per-file filesystem observations made by `_index_single_file`
(indexer.py lines 428-477): the stat mtime, `is_text_file`, the digest
computed by `get_file_hash` (a function of the byte content), and the result
of `compute_vector` (which is `None` for empty extraction or stripped
content below `min_content_length`). -/
structure FsFileObs where
  path : String
  mtime : ℚ
  isText : Bool
  file_hash : String
  vectorResult : Option (List ℕ)
  deriving Repr, DecidableEq

/-- Translation of `_index_single_file` (indexer.py lines 428-477): skip
with no write when a row exists at the path with mtime exactly equal to the
current mtime, unless the file is textual and the stored vector is missing;
otherwise recompute the digest (and the vector for textual files) and write
through the same path-keyed update-or-insert as
`add_or_update_indexed_file`. Returns whether the file was written. -/
def indexSingleFile (f : FsFileObs) (db : SQLiteDB) : Bool × SQLiteDB :=
  match db.files.find? (fun r => r.path = f.path) with
  | some ex =>
    if ex.last_modified = f.mtime ∧ ¬(ex.vector = none ∧ f.isText = true) then
      (false, db)
    else
      (true, (addOrUpdateIndexedFile db f.path (basenameOf f.path) f.file_hash
        (if f.isText then f.vectorResult else none) f.mtime).2)
  | none =>
    (true, (addOrUpdateIndexedFile db f.path (basenameOf f.path) f.file_hash
      (if f.isText then f.vectorResult else none) f.mtime).2)

/-! ## Glob ignore matcher (src/backend/ignored_files_config.py) -/

/-- Items of a glob bracket expression: literal characters and character
ranges, as produced by `fnmatch.translate`. -/
inductive BracketItem
  | lit (c : Char)
  | rng (lo hi : Char)
  deriving Repr, DecidableEq

/-- Chunking of the characters between the brackets into literals and
ranges; a dash at the start or the end stays literal. -/
def bracketItems : List Char → List BracketItem
  | [] => []
  | a :: '-' :: b :: rest => BracketItem.rng a b :: bracketItems rest
  | a :: rest => BracketItem.lit a :: bracketItems rest

/-- Split at the first closing bracket, returning the inside and the
remainder after it; `none` when no closing bracket occurs (then the opening
bracket is literal, as in `fnmatch.translate`). -/
def splitAtBracketClose (s : List Char) : Option (List Char × List Char) :=
  match s.dropWhile (fun c => c ≠ ']') with
  | [] => none
  | _ :: rest => some (s.takeWhile (fun c => c ≠ ']'), rest)

/-- Body of the bracket parse with the negation flag already consumed: a
closing bracket in first position is a literal member, then everything up to
the next closing bracket forms the set. -/
def parseBracketCore (neg : Bool) (s1 : List Char) :
    Option (Bool × List BracketItem × List Char) :=
  match s1 with
  | [] => none
  | c :: rest =>
    if c = ']' then
      (splitAtBracketClose rest).map
        (fun p => (neg, bracketItems (']' :: p.1), p.2))
    else
      (splitAtBracketClose (c :: rest)).map
        (fun p => (neg, bracketItems p.1, p.2))

/-- Parse of a bracket expression; the input is the pattern after the
opening bracket. Returns the negation flag, the items, and the rest of the
pattern. Per `fnmatch.translate`, a leading exclamation mark negates. -/
def parseBracket (s : List Char) :
    Option (Bool × List BracketItem × List Char) :=
  match s with
  | [] => none
  | c :: rest =>
    if c = '!' then parseBracketCore true rest
    else parseBracketCore false (c :: rest)

/-- Membership test of a character against a parsed bracket set. -/
def bracketMatches (neg : Bool) (items : List BracketItem) (c : Char) : Bool :=
  let inSet := items.any (fun it =>
    match it with
    | BracketItem.lit l => c == l
    | BracketItem.rng lo hi => decide (lo ≤ c) && decide (c ≤ hi))
  if neg then !inSet else inSet

/-- Glob matching with the semantics of POSIX `fnmatch.fnmatch` (which on
POSIX normalizes case with the identity, hence is case-sensitive): a star
matches any sequence, a question mark any single character, a bracket
expression one character of a set with optional negation and ranges, and an
unmatched opening bracket is literal. The second list is the pattern, third
the name. The fuel argument only serves totality: every step consumes at
least one pattern or name symbol, so the fuel supplied by `globMatch`
(pattern length plus name length) is never exhausted, and the fuel-out
value coincides with the empty-against-empty base case. -/
def globMatchAux : ℕ → List Char → List Char → Bool
  | 0, p, s => p.isEmpty && s.isEmpty
  | _ + 1, [], [] => true
  | _ + 1, [], _ :: _ => false
  | fuel + 1, '*' :: ps, s =>
    globMatchAux fuel ps s ||
      (match s with
       | [] => false
       | _ :: s2 => globMatchAux fuel ('*' :: ps) s2)
  | fuel + 1, '?' :: ps, _ :: s => globMatchAux fuel ps s
  | _ + 1, '?' :: _, [] => false
  | fuel + 1, '[' :: ps, s =>
    (match parseBracket ps with
     | some (neg, items, rest) =>
       (match s with
        | c :: s2 => bracketMatches neg items c && globMatchAux fuel rest s2
        | [] => false)
     | none =>
       (match s with
        | c :: s2 => (c == '[') && globMatchAux fuel ps s2
        | [] => false))
  | fuel + 1, p :: ps, c :: s => (p == c) && globMatchAux fuel ps s
  | _ + 1, _ :: _, [] => false

/-- Entry point of the glob matcher with adequate fuel. -/
def globMatch (p s : List Char) : Bool :=
  globMatchAux (p.length + s.length) p s

/-- Wrapper of `globMatch` on strings: `fnmatch.fnmatch(name, pat)`. -/
def fnmatchStr (name pat : String) : Bool :=
  globMatch pat.toList name.toList

/-- Lower-casing of one character, ASCII range of Python `str.lower`. -/
def charLower (c : Char) : Char :=
  if 'A' ≤ c ∧ c ≤ 'Z' then Char.ofNat (c.toNat + 32) else c

/-- Lower-casing of a string, the ASCII fragment of Python `str.lower`
(the source compares file basenames, which the model restricts to ASCII). -/
def pyLower (s : String) : String :=
  String.mk (s.toList.map charLower)

/-- Configuration of ignored file patterns
(ignored_files_config.py `IgnoredFilesConfig`). -/
structure IgnoredFilesConfig where
  patterns : List String := []
  deriving Repr, DecidableEq

/-- Translation of `IgnoredFilesConfig.should_ignore`
(ignored_files_config.py lines 26-52): with a nonempty pattern list, take
the basename of the argument and ignore it when some pattern glob-matches
it, or when some pattern containing neither a star nor a question mark
equals it case-insensitively. -/
def shouldIgnore (cfg : IgnoredFilesConfig) (filename : String) : Bool :=
  if cfg.patterns.isEmpty then false
  else
    let basename := basenameOf filename
    cfg.patterns.any (fun pat =>
      fnmatchStr basename pat ||
        ((!pat.toList.contains '*') && (!pat.toList.contains '?') &&
          (pyLower basename == pyLower pat)))

/-! ## Concrete fixtures used by counterexamples and witnesses -/

/-- SQLite store holding one indexed file and one scan result. -/
def dbC1 : SQLiteDB :=
  { files := [⟨1, "/p/a.txt", "a.txt", "h1", none, 1, 0⟩]
    results := [⟨1, "s1", "/q/b.txt", "exact", 1, 1⟩]
    nextId := 2, nextResultId := 2, now := 1 }

/-- Scanned file whose primary cosine score equals the medium threshold and
whose secondary score equals exactly 0.8 of it. -/
def fileC2 : ScanFileObs :=
  ⟨"/t/doc.txt", none, true, 200, 200, [65/100], [52/100]⟩

/-- One-file sequential scan of `fileC2` under the default (medium) preset
with one indexed vector of id 7. -/
def runC2 : ScanRun :=
  scanDirectorySequential {} "s2" [fileC2] [7] (createTask {} "s2" "scan")

/-- Configuration with integer-valued thresholds (the model does not
restrict thresholds to the unit interval, and neither does the source,
whose `update_config` accepts any float) and secondary validation off. -/
def cfgInt : SimilarityConfig :=
  { similarity_threshold := 0, high_confidence_threshold := 2,
    exact_match_threshold := 3, ngram_range_min := 1, ngram_range_max := 3,
    require_multiple_matches := false, min_content_length := 0 }

/-- Text file with primary score 1 and no digest match. -/
def fileW2 : ScanFileObs := ⟨"/t/w.txt", none, true, 10, 10, [1], []⟩

/-- One-file scan of `fileW2` under `cfgInt`. -/
def runW2 : ScanRun :=
  scanDirectorySequential cfgInt "w2" [fileW2] [7] (createTask {} "w2" "scan")

/-- Text file with primary cosine score 0.99 and no digest match. -/
def fileC3 : ScanFileObs := ⟨"/t/x.txt", none, true, 300, 300, [99/100], []⟩

/-- One-file scan of `fileC3` with secondary validation off and default
thresholds. -/
def runC3 : ScanRun :=
  scanDirectorySequential { require_multiple_matches := false } "s3"
    [fileC3] [3] (createTask {} "s3" "scan")

/-- Binary file whose digest matches indexed file 4. -/
def fileW3 : ScanFileObs := ⟨"/t/y.bin", some 4, false, 0, 0, [], []⟩

/-- One-file scan of `fileW3` under `cfgInt`. -/
def runW3 : ScanRun :=
  scanDirectorySequential cfgInt "w3" [fileW3] [4] (createTask {} "w3" "scan")

/-- Two binary candidate files, used by the cancellation claim. -/
def fileA : ScanFileObs := ⟨"/d/1.bin", none, false, 0, 0, [], []⟩

/-- Second binary candidate file. -/
def fileB : ScanFileObs := ⟨"/d/2.bin", none, false, 0, 0, [], []⟩

/-- Progress store with scan task s4 created and then cancelled before the
scan loop runs. -/
def psC4 : ProgressStore :=
  (cancelTask (createTask {} "s4" "scan") "s4").2

/-- Sequential scan of two files started after the cancel request. -/
def runC4 : ScanRun :=
  scanDirectorySequential cfgInt "s4" [fileA, fileB] [] psC4

/-- SQLite store holding one indexed textual file without a stored vector
(its content is below `min_content_length`). -/
def dbC5 : SQLiteDB :=
  { files := [⟨1, "/d/a.txt", "a.txt", "h0", none, 5, 0⟩]
    results := [], nextId := 2, nextResultId := 1, now := 3 }

/-- Reindex observation of the same file with unchanged bytes (same digest,
same empty vector result) and unchanged mtime. -/
def fileC5 : FsFileObs := ⟨"/d/a.txt", 5, true, "h0", none⟩

/-- SQLite store holding one indexed textual file with a stored vector. -/
def dbW5 : SQLiteDB :=
  { files := [⟨1, "/d/b.txt", "b.txt", "h2", some [1, 2], 7, 0⟩]
    results := [], nextId := 2, nextResultId := 1, now := 3 }

/-- Reindex observation of that file with unchanged mtime. -/
def fileW5 : FsFileObs := ⟨"/d/b.txt", 7, true, "h2", some [1, 2]⟩

/-- Progress store with one registered task, used by the frame claim. -/
def psW9 : ProgressStore := createTask {} "t1" "scan"

/-! ## Helper lemmas -/

theorem isSome_map {α β : Type} (f : α → β) (o : Option α) :
    (o.map f).isSome = o.isSome := by
  cases o <;> rfl

theorem alistLookup_cons {α : Type} (p : String × α) (l : List (String × α))
    (k : String) :
    alistLookup (p :: l) k = if p.1 = k then some p.2 else alistLookup l k := by
  unfold alistLookup
  by_cases h : p.1 = k
  · rw [List.find?_cons_of_pos _ (by simp [h]), if_pos h]
    rfl
  · rw [List.find?_cons_of_neg _ (by simp [h]), if_neg h]

theorem alistLookup_alistSet_self {α : Type} (l : List (String × α))
    (k : String) (v : α) : alistLookup (alistSet l k v) k = some v := by
  induction l with
  | nil => simp [alistSet, alistLookup_cons]
  | cons p rest ih =>
    by_cases h : p.1 = k
    · simp [alistSet, h, alistLookup_cons]
    · simp [alistSet, h, alistLookup_cons, ih]

theorem notifySubscribers_tasks (ps : ProgressStore) (task_id : String) :
    (notifySubscribers ps task_id).tasks = ps.tasks := by
  unfold notifySubscribers
  cases alistLookup ps.tasks task_id
  · rfl
  · cases alistLookup ps.subscribers task_id <;> rfl

theorem notifySubscribers_cancelled (ps : ProgressStore) (task_id : String) :
    (notifySubscribers ps task_id).cancelled = ps.cancelled := by
  unfold notifySubscribers
  cases alistLookup ps.tasks task_id
  · rfl
  · cases alistLookup ps.subscribers task_id <;> rfl

theorem updateTask_tasks_lookup (ps : ProgressStore) (task_id : String)
    (upd : TaskProgress → TaskProgress) :
    alistLookup ((updateTask ps task_id upd).2).tasks task_id =
      (alistLookup ps.tasks task_id).map upd := by
  cases h : alistLookup ps.tasks task_id
  · simp [updateTask, h]
  · simp [updateTask, h, notifySubscribers_tasks, alistLookup_alistSet_self]

theorem updateTask_cancelled (ps : ProgressStore) (task_id : String)
    (upd : TaskProgress → TaskProgress) :
    ((updateTask ps task_id upd).2).cancelled = ps.cancelled := by
  cases h : alistLookup ps.tasks task_id
  · simp [updateTask, h]
  · simp [updateTask, h, notifySubscribers_cancelled]

theorem updateTask_tasks_lookup_isSome (ps : ProgressStore) (task_id : String)
    (upd : TaskProgress → TaskProgress) :
    (alistLookup ((updateTask ps task_id upd).2).tasks task_id).isSome =
      (alistLookup ps.tasks task_id).isSome := by
  rw [updateTask_tasks_lookup, isSome_map]

theorem scanFileStep_files_scanned (config : SimilarityConfig)
    (scan_id : String) (ids : List ℕ) (st : ScanRun) (f : ScanFileObs) :
    (scanFileStep config scan_id ids st f).files_scanned =
      st.files_scanned + 1 := by
  unfold scanFileStep
  cases h : f.exactMatchId <;> simp only [h]
  · split
    · split
      · rfl
      · split <;> rfl
    · rfl

theorem scanFileStep_cancelled (config : SimilarityConfig) (scan_id : String)
    (ids : List ℕ) (st : ScanRun) (f : ScanFileObs) :
    (scanFileStep config scan_id ids st f).ps.cancelled = st.ps.cancelled := by
  unfold scanFileStep
  cases h : f.exactMatchId <;> simp only [h]
  · split
    · split
      · simp [updateTask_cancelled]
      · split <;> simp [updateTask_cancelled]
    · simp [updateTask_cancelled]
  · simp [updateTask_cancelled]

theorem scanFileStep_tasks_isSome (config : SimilarityConfig)
    (scan_id : String) (ids : List ℕ) (st : ScanRun) (f : ScanFileObs) :
    (alistLookup (scanFileStep config scan_id ids st f).ps.tasks scan_id).isSome =
      (alistLookup st.ps.tasks scan_id).isSome := by
  unfold scanFileStep
  cases h : f.exactMatchId <;> simp only [h]
  · split
    · split
      · simp [updateTask_tasks_lookup_isSome]
      · split <;> simp [updateTask_tasks_lookup_isSome]
    · simp [updateTask_tasks_lookup_isSome]
  · simp [updateTask_tasks_lookup_isSome]

theorem scanFold_files_scanned (config : SimilarityConfig) (scan_id : String)
    (ids : List ℕ) :
    ∀ (files : List ScanFileObs) (st : ScanRun),
      (files.foldl (scanFileStep config scan_id ids) st).files_scanned =
        st.files_scanned + files.length := by
  intro files
  induction files with
  | nil => intro st; simp
  | cons f fs ih =>
    intro st
    rw [List.foldl_cons, ih, scanFileStep_files_scanned]
    simp only [List.length_cons]
    omega

theorem scanFold_cancelled (config : SimilarityConfig) (scan_id : String)
    (ids : List ℕ) :
    ∀ (files : List ScanFileObs) (st : ScanRun),
      (files.foldl (scanFileStep config scan_id ids) st).ps.cancelled =
        st.ps.cancelled := by
  intro files
  induction files with
  | nil => intro st; rfl
  | cons f fs ih =>
    intro st
    rw [List.foldl_cons, ih, scanFileStep_cancelled]

theorem scanFold_tasks_isSome (config : SimilarityConfig) (scan_id : String)
    (ids : List ℕ) :
    ∀ (files : List ScanFileObs) (st : ScanRun),
      (alistLookup (files.foldl (scanFileStep config scan_id ids) st).ps.tasks
        scan_id).isSome = (alistLookup st.ps.tasks scan_id).isSome := by
  intro files
  induction files with
  | nil => intro st; rfl
  | cons f fs ih =>
    intro st
    rw [List.foldl_cons, ih, scanFileStep_tasks_isSome]

theorem scanDirectorySequential_cancelled (config : SimilarityConfig)
    (scan_id : String) (files : List ScanFileObs) (ids : List ℕ)
    (ps : ProgressStore) :
    (scanDirectorySequential config scan_id files ids ps).ps.cancelled =
      ps.cancelled := by
  unfold scanDirectorySequential
  rw [updateTask_cancelled, scanFold_cancelled]
  simp [updateTask_cancelled]

theorem scanDirectorySequential_files_scanned (config : SimilarityConfig)
    (scan_id : String) (files : List ScanFileObs) (ids : List ℕ)
    (ps : ProgressStore) :
    (scanDirectorySequential config scan_id files ids ps).files_scanned =
      files.length := by
  unfold scanDirectorySequential
  rw [scanFold_files_scanned]
  simp

theorem map_status_after_update (psX : ProgressStore) (sid : String)
    (u : TaskProgress → TaskProgress) (str : String)
    (hX : (alistLookup psX.tasks sid).isSome = true)
    (hu : ∀ t, (u t).status = str) :
    (alistLookup ((updateTask psX sid u).2).tasks sid).map
      (fun t => t.status) = some str := by
  rw [updateTask_tasks_lookup]
  obtain ⟨t, ht⟩ := Option.isSome_iff_exists.mp hX
  rw [ht]
  simp [hu]

theorem scanDirectorySequential_status (config : SimilarityConfig)
    (scan_id : String) (files : List ScanFileObs) (ids : List ℕ)
    (ps : ProgressStore)
    (h : (alistLookup ps.tasks scan_id).isSome = true) :
    (alistLookup (scanDirectorySequential config scan_id files ids ps).ps.tasks
      scan_id).map (fun t => t.status) = some "completed" := by
  unfold scanDirectorySequential
  apply map_status_after_update _ _ _ "completed"
  · rw [scanFold_tasks_isSome]
    dsimp only
    rw [updateTask_tasks_lookup_isSome, updateTask_tasks_lookup_isSome]
    exact h
  · intro t
    rfl

theorem mem_insertByScoreDesc (l : List (ℕ × ℚ × String)) (x y : ℕ × ℚ × String) :
    y ∈ insertByScoreDesc x l ↔ y = x ∨ y ∈ l := by
  induction l with
  | nil => simp [insertByScoreDesc]
  | cons z zs ih =>
    simp only [insertByScoreDesc]
    split
    · simp [List.mem_cons]
    · simp only [List.mem_cons, ih]
      tauto

theorem mem_sortFold (l : List (ℕ × ℚ × String)) :
    ∀ (acc : List (ℕ × ℚ × String)) (y : ℕ × ℚ × String),
      y ∈ l.foldl (fun a x => insertByScoreDesc x a) acc → y ∈ acc ∨ y ∈ l := by
  induction l with
  | nil => intro acc y h; exact Or.inl h
  | cons z zs ih =>
    intro acc y h
    rw [List.foldl_cons] at h
    rcases ih (insertByScoreDesc z acc) y h with h2 | h2
    · rcases (mem_insertByScoreDesc acc z y).mp h2 with h3 | h3
      · exact Or.inr (h3 ▸ List.mem_cons_self z zs)
      · exact Or.inl h3
    · exact Or.inr (List.mem_cons_of_mem z h2)

theorem mem_sortByScoreDesc {l : List (ℕ × ℚ × String)} {y : ℕ × ℚ × String}
    (h : y ∈ sortByScoreDesc l) : y ∈ l := by
  rcases mem_sortFold l [] y h with h2 | h2
  · cases h2
  · exact h2

theorem mem_primaryCandidates {config : SimilarityConfig} {p : List ℚ}
    {c : ℕ × ℚ} (h : c ∈ primaryCandidates config p) :
    config.similarity_threshold ≤ c.2 := by
  unfold primaryCandidates at h
  rw [List.mem_filter] at h
  exact of_decide_eq_true h.2

theorem mem_validateCandidates {config : SimilarityConfig} {s : List ℚ}
    {cands : List (ℕ × ℚ)} {c : ℕ × ℚ}
    (h : c ∈ validateCandidates config s cands) :
    ∃ c0 ∈ cands, config.similarity_threshold * (8/10) ≤ s.getD c0.1 0 ∧
      c = (c0.1, (c0.2 + s.getD c0.1 0) / 2) := by
  unfold validateCandidates at h
  rw [List.mem_filterMap] at h
  obtain ⟨c0, hc0, hf⟩ := h
  dsimp only at hf
  by_cases hcnd : config.similarity_threshold * (8/10) ≤ s.getD c0.1 0
  · rw [if_pos hcnd] at hf
    exact ⟨c0, hc0, hcnd, (Option.some.inj hf).symm⟩
  · rw [if_neg hcnd] at hf
    cases hf

theorem computeSim_elem_spec (config : SimilarityConfig) (len : ℕ)
    (p s : List ℚ) (ids : List ℕ) :
    ∀ x ∈ computeSimilarityWithValidation config len p s ids,
      x.2.2 = getMatchType config x.2.1 ∧
      (config.similarity_threshold ≤ x.2.1 ∨
        ∃ a b, config.similarity_threshold ≤ a ∧
          config.similarity_threshold * (8/10) ≤ b ∧ x.2.1 = (a + b) / 2) := by
  intro x hx
  simp only [computeSimilarityWithValidation] at hx
  split at hx
  · cases hx
  · split at hx
    · have hx2 := mem_sortByScoreDesc (List.take_subset 5 _ hx)
      rw [List.mem_map] at hx2
      obtain ⟨c, hc, hgc⟩ := hx2
      obtain ⟨c0, hc0, hbnd, hceq⟩ := mem_validateCandidates hc
      subst hgc
      refine ⟨rfl, Or.inr ⟨c0.2, s.getD c0.1 0, mem_primaryCandidates hc0, hbnd, ?_⟩⟩
      rw [hceq]
    · have hx2 := mem_sortByScoreDesc (List.take_subset 5 _ hx)
      rw [List.mem_map] at hx2
      obtain ⟨c, hc, hgc⟩ := hx2
      subst hgc
      exact ⟨rfl, Or.inl (mem_primaryCandidates hc)⟩

theorem scanFileStep_results {config : SimilarityConfig} {scan_id : String}
    {ids : List ℕ} {st : ScanRun} {f : ScanFileObs} {r : StoredScanResult}
    (h : r ∈ (scanFileStep config scan_id ids st f).results) :
    r ∈ st.results ∨ (r.match_type = "exact" ∧ r.score = 1) ∨
      ∃ x ∈ computeSimilarityWithValidation config f.contentLen
          f.primaryScores f.secondaryScores ids,
        r.match_type = x.2.2 ∧ r.score = x.2.1 := by
  unfold scanFileStep at h
  cases hm : f.exactMatchId <;> rw [hm] at h <;> dsimp only at h
  · split at h
    · split at h
      · exact Or.inl h
      · split at h
        · exact Or.inl h
        · rename_i mid score mt tail heq
          rw [List.mem_append] at h
          rcases h with h | h
          · exact Or.inl h
          · rcases List.mem_singleton.mp h with rfl
            refine Or.inr (Or.inr ⟨(mid, score, mt), ?_, rfl, rfl⟩)
            rw [heq]
            exact List.mem_cons_self _ _
    · exact Or.inl h
  · rw [List.mem_append] at h
    rcases h with h | h
    · exact Or.inl h
    · rcases List.mem_singleton.mp h with rfl
      exact Or.inr (Or.inl ⟨rfl, rfl⟩)

theorem scanFold_results (config : SimilarityConfig) (scan_id : String)
    (ids : List ℕ) :
    ∀ (files : List ScanFileObs) (st : ScanRun),
      (∀ r ∈ st.results, (r.match_type = "exact" ∧ r.score = 1) ∨
        ∃ (len : ℕ) (pr se : List ℚ),
          ∃ x ∈ computeSimilarityWithValidation config len pr se ids,
            r.match_type = x.2.2 ∧ r.score = x.2.1) →
      ∀ r ∈ (files.foldl (scanFileStep config scan_id ids) st).results,
        (r.match_type = "exact" ∧ r.score = 1) ∨
        ∃ (len : ℕ) (pr se : List ℚ),
          ∃ x ∈ computeSimilarityWithValidation config len pr se ids,
            r.match_type = x.2.2 ∧ r.score = x.2.1 := by
  intro files
  induction files with
  | nil => intro st hst r hr; exact hst r hr
  | cons f fs ih =>
    intro st hst r hr
    rw [List.foldl_cons] at hr
    refine ih (scanFileStep config scan_id ids st f) ?_ r hr
    intro r2 hr2
    rcases scanFileStep_results hr2 with h2 | h2 | h2
    · exact hst r2 h2
    · exact Or.inl h2
    · exact Or.inr ⟨f.contentLen, f.primaryScores, f.secondaryScores, h2⟩

theorem scanRun_results {config : SimilarityConfig} {scan_id : String}
    {files : List ScanFileObs} {ids : List ℕ} {ps : ProgressStore}
    {r : StoredScanResult}
    (h : r ∈ (scanDirectorySequential config scan_id files ids ps).results) :
    (r.match_type = "exact" ∧ r.score = 1) ∨
    ∃ (len : ℕ) (pr se : List ℚ),
      ∃ x ∈ computeSimilarityWithValidation config len pr se ids,
        r.match_type = x.2.2 ∧ r.score = x.2.1 := by
  unfold scanDirectorySequential at h
  dsimp only at h
  exact scanFold_results config scan_id ids files _ (by intro r2 hr2; cases hr2) r h

theorem getMatchType_eq_exact {config : SimilarityConfig} {v : ℚ}
    (h : getMatchType config v = "exact") :
    config.exact_match_threshold ≤ v := by
  unfold getMatchType at h
  split at h
  · assumption
  · split at h <;> simp at h

theorem cancelTask_isCancelled (ps : ProgressStore) (task_id : String)
    (h : (alistLookup ps.tasks task_id).isSome = true) :
    isCancelled ((cancelTask ps task_id).2) task_id = true := by
  obtain ⟨t, ht⟩ := Option.isSome_iff_exists.mp h
  unfold cancelTask
  rw [ht]
  dsimp only
  unfold isCancelled
  rw [updateTask_cancelled]
  dsimp only
  by_cases hc : ps.cancelled.contains task_id
  · rw [if_pos hc]; exact hc
  · rw [if_neg hc]; simp

theorem cancelTask_tasks_isSome (ps : ProgressStore) (task_id : String)
    (h : (alistLookup ps.tasks task_id).isSome = true) :
    (alistLookup ((cancelTask ps task_id).2).tasks task_id).isSome = true := by
  obtain ⟨t, ht⟩ := Option.isSome_iff_exists.mp h
  unfold cancelTask
  rw [ht]
  dsimp only
  rw [updateTask_tasks_lookup_isSome]
  dsimp only
  rw [ht]
  rfl

theorem cancelTask_status (ps : ProgressStore) (task_id : String)
    (h : (alistLookup ps.tasks task_id).isSome = true) :
    (alistLookup ((cancelTask ps task_id).2).tasks task_id).map
      (fun t => t.status) = some "cancelling" := by
  obtain ⟨t, ht⟩ := Option.isSome_iff_exists.mp h
  unfold cancelTask
  rw [ht]
  dsimp only
  apply map_status_after_update _ _ _ "cancelling"
  · dsimp only
    rw [ht]
    rfl
  · intro x
    rfl

/-! ## Claim theorems -/

/-- C1 (amended): `delete_all_indexed_files` empties the indexed files on
both backends and returns their count, but only the Redis backend also
purges the stored scan results; the SQLite backend leaves the
`scan_results` table untouched (the cascade claimed by the spec exists only
in the Redis backend; the HTTP endpoint compensates for SQLite by deleting
scan results itself before calling into the table). -/
theorem delete_all_backends_spec (sdb : SQLiteDB) (rdb : RedisDB) :
    (sqliteDeleteAllIndexedFiles sdb).2.files = [] ∧
    (sqliteDeleteAllIndexedFiles sdb).2.results = sdb.results ∧
    (sqliteDeleteAllIndexedFiles sdb).1 = countIndexedFiles sdb ∧
    (redisDeleteAllIndexedFiles rdb).2.files = [] ∧
    (redisDeleteAllIndexedFiles rdb).2.results = [] ∧
    (redisDeleteAllIndexedFiles rdb).1 = rdb.files.length :=
  ⟨rfl, rfl, rfl, rfl, rfl, rfl⟩

/-- C1 counterexample: on the SQLite backend, deleting all indexed files of
a store holding one file and one scan result leaves the scan result in
place, refuting the claim that every backend ends with zero ScanResults. -/
theorem delete_all_sqlite_keeps_results_cx :
    (sqliteDeleteAllIndexedFiles dbC1).2.files = [] ∧
    countScanResults (sqliteDeleteAllIndexedFiles dbC1).2 = 1 := by
  decide

/-- C2 (amended): every result stored by the sequential scanner whose
match kind is not exact has score at least `0.9 × similarity_threshold`
(when secondary validation runs, the stored score is the mean of a primary
score that is at least the threshold and a secondary score that is at least
0.8 of it, so it can drop to 0.9 of the threshold but no lower; without
validation the primary score itself is at least the threshold). -/
theorem scan_nonexact_score_bound (config : SimilarityConfig)
    (scan_id : String) (files : List ScanFileObs) (ids : List ℕ)
    (ps : ProgressStore) (hth : 0 ≤ config.similarity_threshold) :
    ∀ r ∈ (scanDirectorySequential config scan_id files ids ps).results,
      r.match_type ≠ "exact" →
      (9/10) * config.similarity_threshold ≤ r.score := by
  intro r hr hne
  rcases scanRun_results hr with ⟨hmt, -⟩ | ⟨len, pr, se, x, hx, hmt, hsc⟩
  · exact absurd hmt hne
  · obtain ⟨-, hdisj⟩ := computeSim_elem_spec config len pr se ids x hx
    rw [hsc]
    rcases hdisj with h1 | ⟨a, b, ha, hb, heq⟩
    · linarith
    · rw [heq]; linarith

/-- C2 witness: a concrete run in which the theorem applies, with a stored
non-exact result whose score meets the bound. -/
theorem scan_nonexact_score_bound_witness :
    0 ≤ cfgInt.similarity_threshold ∧
    (⟨"w2", "/t/w.txt", "similarity", 1, 7⟩ : StoredScanResult) ∈ runW2.results ∧
    (⟨"w2", "/t/w.txt", "similarity", 1, 7⟩ : StoredScanResult).match_type ≠ "exact" ∧
    (9/10) * cfgInt.similarity_threshold ≤
      (⟨"w2", "/t/w.txt", "similarity", 1, 7⟩ : StoredScanResult).score :=
  ⟨by decide, by decide, by decide,
    scan_nonexact_score_bound cfgInt "w2" [fileW2] [7]
      (createTask {} "w2" "scan") (by decide) _ (by decide) (by decide)⟩

/-- C2 counterexample: under the default medium preset with secondary
validation enabled, a candidate with primary score 0.65 and secondary score
0.52 is stored with kind similarity and score 0.585, strictly below the
configured similarity threshold 0.65 — refuting the claim that every stored
non-exact result has score at least the threshold. -/
theorem scan_nonexact_below_threshold_cx :
    runC2.results = [⟨"s2", "/t/doc.txt", "similarity", 117/200, 7⟩] ∧
    ({} : SimilarityConfig).similarity_threshold = 65/100 ∧
    (117/200 : ℚ) < 65/100 := by
  refine ⟨?_, rfl, by norm_num⟩
  norm_num [runC2, fileC2, scanDirectorySequential, scanFileStep, createTask,
    updateTask, alistLookup, alistSet, notifySubscribers,
    computeSimilarityWithValidation, primaryCandidates, validationApplies,
    secondaryNgramMin, secondaryNgramMax, validateCandidates, sortByScoreDesc,
    insertByScoreDesc, getMatchType, List.enum, List.enumFrom, List.filter,
    List.filterMap_cons, List.getD, List.foldl_cons, List.foldl_nil,
    List.take_succ_cons, List.take_nil, List.find?]

/-- C3 (amended): a stored result recorded with match kind exact either
comes from the digest-equality branch and carries score exactly 1, or comes
from the similarity branch with its cosine score, which is then at least
`exact_match_threshold` but need not be 1. -/
theorem stored_exact_score_spec (config : SimilarityConfig)
    (scan_id : String) (files : List ScanFileObs) (ids : List ℕ)
    (ps : ProgressStore) :
    ∀ r ∈ (scanDirectorySequential config scan_id files ids ps).results,
      r.match_type = "exact" →
      r.score = 1 ∨ config.exact_match_threshold ≤ r.score := by
  intro r hr hex
  rcases scanRun_results hr with ⟨-, hsc⟩ | ⟨len, pr, se, x, hx, hmt, hsc⟩
  · exact Or.inl hsc
  · obtain ⟨hty, -⟩ := computeSim_elem_spec config len pr se ids x hx
    right
    rw [hsc]
    apply getMatchType_eq_exact
    rw [← hty, ← hmt]
    exact hex

/-- C3 witness: a digest match stored with kind exact and score 1, to which
the theorem applies. -/
theorem stored_exact_score_spec_witness :
    (⟨"w3", "/t/y.bin", "exact", 1, 4⟩ : StoredScanResult) ∈ runW3.results ∧
    ((⟨"w3", "/t/y.bin", "exact", 1, 4⟩ : StoredScanResult).score = 1 ∨
      cfgInt.exact_match_threshold ≤
        (⟨"w3", "/t/y.bin", "exact", 1, 4⟩ : StoredScanResult).score) :=
  ⟨by decide,
    stored_exact_score_spec cfgInt "w3" [fileW3] [4]
      (createTask {} "w3" "scan") _ (by decide) (by decide)⟩

/-- C3 counterexample: with the default thresholds and validation off, a
file of cosine score 0.99 against one indexed vector is stored with match
kind exact and score 0.99, not 1.0 — refuting the claim that every stored
exact result carries score exactly 1.0. -/
theorem exact_kind_score_not_one_cx :
    runC3.results = [⟨"s3", "/t/x.txt", "exact", 99/100, 3⟩] ∧
    ¬((99/100 : ℚ) = 1) := by
  refine ⟨?_, by norm_num⟩
  norm_num [runC3, fileC3, scanDirectorySequential, scanFileStep, createTask,
    updateTask, alistLookup, alistSet, notifySubscribers,
    computeSimilarityWithValidation, primaryCandidates, validationApplies,
    secondaryNgramMin, secondaryNgramMax, validateCandidates, sortByScoreDesc,
    insertByScoreDesc, getMatchType, List.enum, List.enumFrom, List.filter,
    List.filterMap_cons, List.getD, List.foldl_cons, List.foldl_nil,
    List.take_succ_cons, List.take_nil, List.find?]

/-- C4 (amended): requesting cancellation of a registered scan task sets
its status to cancelling and its id stays in the cancelled set, but the
sequential scanner never polls the flag: it processes every file of the
walk and finally overwrites the status with completed. Only the indexer
pipeline observes the flag between files. -/
theorem scan_cancel_ignored (config : SimilarityConfig) (scan_id : String)
    (files : List ScanFileObs) (ids : List ℕ) (ps : ProgressStore)
    (h : (alistLookup ps.tasks scan_id).isSome = true) :
    (alistLookup ((cancelTask ps scan_id).2).tasks scan_id).map
      (fun t => t.status) = some "cancelling" ∧
    (alistLookup (scanDirectorySequential config scan_id files ids
      ((cancelTask ps scan_id).2)).ps.tasks scan_id).map
        (fun t => t.status) = some "completed" ∧
    (scanDirectorySequential config scan_id files ids
      ((cancelTask ps scan_id).2)).files_scanned = files.length ∧
    isCancelled (scanDirectorySequential config scan_id files ids
      ((cancelTask ps scan_id).2)).ps scan_id = true := by
  refine ⟨cancelTask_status ps scan_id h, ?_, ?_, ?_⟩
  · exact scanDirectorySequential_status config scan_id files ids _
      (cancelTask_tasks_isSome ps scan_id h)
  · exact scanDirectorySequential_files_scanned config scan_id files ids _
  · unfold isCancelled
    rw [scanDirectorySequential_cancelled]
    exact cancelTask_isCancelled ps scan_id h

/-- C4 witness: the theorem applied to the concrete cancelled two-file
scan. -/
theorem scan_cancel_ignored_witness :
    (alistLookup psC4.tasks "s4").map (fun t => t.status) = some "cancelling" ∧
    (alistLookup runC4.ps.tasks "s4").map (fun t => t.status) = some "completed" ∧
    runC4.files_scanned = 2 ∧
    isCancelled runC4.ps "s4" = true :=
  scan_cancel_ignored cfgInt "s4" [fileA, fileB] []
    (createTask {} "s4" "scan") (by decide)

/-- C4 counterexample: a scan task is cancelled before the scanner loop
starts, yet the run processes both files and terminates with status
completed while the cancellation flag is still set — refuting the claim
that the scanner observes the flag, stops, and reaches status cancelled. -/
theorem scan_cancel_completes_cx :
    isCancelled runC4.ps "s4" = true ∧
    runC4.files_scanned = 2 ∧
    (alistLookup runC4.ps.tasks "s4").map (fun t => t.status) =
      some "completed" := by
  decide

/-- C9: updating an unregistered task id returns `None` and leaves the
progress store completely unchanged — no task entry is created, no field
is written, and no subscriber queue receives a snapshot. -/
theorem update_task_missing_frame (ps : ProgressStore) (task_id : String)
    (upd : TaskProgress → TaskProgress)
    (h : alistLookup ps.tasks task_id = none) :
    updateTask ps task_id upd = (none, ps) := by
  unfold updateTask
  rw [h]

/-- C9 witness: the theorem applied to a store holding one task and a
missing id. -/
theorem update_task_missing_frame_witness :
    alistLookup psW9.tasks "absent" = none ∧
    updateTask psW9 "absent" (fun t => { t with status := "completed" }) =
      (none, psW9) :=
  ⟨by decide, update_task_missing_frame psW9 "absent" _ (by decide)⟩

/-- C10: the relational backend parses the given file id with `int()`;
`get_indexed_file_by_id` and `delete_indexed_file` raise (rather than
returning `None` / `False`) exactly when the id string is not a decimal
integer, and on success the lookup is by the parsed primary key. -/
theorem by_id_requires_decimal (db : SQLiteDB) (file_id : String) :
    (pythonInt file_id = none →
      getIndexedFileById db file_id = Except.error () ∧
      deleteIndexedFile db file_id = Except.error ()) ∧
    (∀ n, pythonInt file_id = some n →
      getIndexedFileById db file_id =
        Except.ok (db.files.find? (fun r => (r.id : ℤ) = n))) := by
  constructor
  · intro h
    constructor <;> simp [getIndexedFileById, deleteIndexedFile, h]
  · intro n h
    simp [getIndexedFileById, h]

/-- C10 witness: a UUID id string, as produced by the KV backend, fails
`int()` parsing, so both operations raise. -/
theorem by_id_requires_decimal_witness :
    pythonInt "9b1deb4d-3b7d-4bad-9bdd-2b0d7b3dcb6d" = none ∧
    getIndexedFileById {} "9b1deb4d-3b7d-4bad-9bdd-2b0d7b3dcb6d" =
      Except.error () ∧
    deleteIndexedFile {} "9b1deb4d-3b7d-4bad-9bdd-2b0d7b3dcb6d" =
      Except.error () :=
  ⟨by decide,
    ((by_id_requires_decimal {} "9b1deb4d-3b7d-4bad-9bdd-2b0d7b3dcb6d").1
      (by decide)).1,
    ((by_id_requires_decimal {} "9b1deb4d-3b7d-4bad-9bdd-2b0d7b3dcb6d").1
      (by decide)).2⟩

/-- C5 (amended): during indexing a file is skipped with no store write if
and only if an IndexedFile exists at its path with stored mtime exactly
equal to the current mtime and (the file is not textual or the stored
feature vector is present); otherwise the digest (and, for textual files,
the vector) is recomputed and upserted. Consequently reindexing a file with
unchanged bytes and unchanged mtime is a no-op only in the skip cases: a
textual file whose stored vector is absent (content below
`min_content_length`) is rewritten on every reindex, refreshing
`indexed_at`. -/
theorem index_skip_iff (f : FsFileObs) (db : SQLiteDB) :
    ((indexSingleFile f db).1 = false ↔
      ∃ ex, db.files.find? (fun r => r.path = f.path) = some ex ∧
        ex.last_modified = f.mtime ∧ (f.isText = false ∨ ex.vector ≠ none)) ∧
    ((indexSingleFile f db).1 = false → (indexSingleFile f db).2 = db) := by
  unfold indexSingleFile
  cases hf : db.files.find? (fun r => r.path = f.path) <;> dsimp only
  case none =>
    constructor
    · simp
    · simp
  case some ex =>
    by_cases hc : ex.last_modified = f.mtime ∧ ¬(ex.vector = none ∧ f.isText = true)
    · rw [if_pos hc]
      constructor
      · constructor
        · intro _
          refine ⟨ex, rfl, hc.1, ?_⟩
          rcases Bool.eq_false_or_eq_true f.isText with hb | hb
          · exact Or.inr (fun hv => hc.2 ⟨hv, hb⟩)
          · exact Or.inl hb
        · intro _
          rfl
      · intro _
        rfl
    · rw [if_neg hc]
      constructor
      · constructor
        · intro h
          simp at h
        · rintro ⟨ex2, hex2, hm, hd⟩
          obtain rfl : ex = ex2 := Option.some.inj hex2
          have h2 : ex.vector = none ∧ f.isText = true := by
            by_contra h3
            exact hc ⟨hm, h3⟩
          rcases hd with hd | hd
          · rw [h2.2] at hd
            cases hd
          · exact absurd h2.1 hd
      · intro h
        simp at h

/-- C5 witness: reindexing an unchanged textual file whose vector is stored
is skipped and leaves the store untouched. -/
theorem index_skip_iff_witness :
    (indexSingleFile fileW5 dbW5).1 = false ∧
    (indexSingleFile fileW5 dbW5).2 = dbW5 :=
  ⟨by decide, (index_skip_iff fileW5 dbW5).2 (by decide)⟩

/-- C5 counterexample: a textual file below the vectorization length has no
stored vector, so reindexing it with unchanged bytes and unchanged mtime is
not a no-op: the row is rewritten and `indexed_at` changes from tick 0 to
tick 3 — refuting the claimed consequence that unchanged bytes and mtime
always leave `indexed_at` unchanged. -/
theorem index_rewrite_unchanged_cx :
    (indexSingleFile fileC5 dbC5).1 = true ∧
    (getIndexedFileByPath dbC5 "/d/a.txt").map (fun r => r.indexed_at) =
      some 0 ∧
    (getIndexedFileByPath (indexSingleFile fileC5 dbC5).2 "/d/a.txt").map
      (fun r => r.indexed_at) = some 3 := by
  decide

theorem validate_enumFrom (config : SimilarityConfig) (s : List ℚ) :
    ∀ (l : List ℚ) (n : ℕ),
      validateCandidates config s
        ((l.enumFrom n).filter
          (fun c => decide (config.similarity_threshold ≤ c.2))) =
      (List.range' n l.length).filterMap (fun idx =>
        if config.similarity_threshold ≤ l.getD (idx - n) 0 ∧
            config.similarity_threshold * (8/10) ≤ s.getD idx 0 then
          some (idx, (l.getD (idx - n) 0 + s.getD idx 0) / 2)
        else none) := by
  intro l
  induction l with
  | nil => intro n; rfl
  | cons a as ih =>
    intro n
    have htail : (List.range' (n + 1) as.length).filterMap (fun idx =>
        if config.similarity_threshold ≤ (a :: as).getD (idx - n) 0 ∧
            config.similarity_threshold * (8/10) ≤ s.getD idx 0 then
          some (idx, ((a :: as).getD (idx - n) 0 + s.getD idx 0) / 2)
        else none) =
        (List.range' (n + 1) as.length).filterMap (fun idx =>
        if config.similarity_threshold ≤ as.getD (idx - (n + 1)) 0 ∧
            config.similarity_threshold * (8/10) ≤ s.getD idx 0 then
          some (idx, (as.getD (idx - (n + 1)) 0 + s.getD idx 0) / 2)
        else none) := by
      apply List.filterMap_congr
      intro idx hidx
      have hge : n + 1 ≤ idx := (List.mem_range'_1.mp hidx).1
      have hsub : idx - n = (idx - (n + 1)) + 1 := by omega
      rw [hsub]
      simp [List.getD]
    simp only [List.length_cons, List.range'_succ n as.length 1]
    rw [List.filterMap_cons]
    have hzero : (a :: as).getD (n - n) 0 = a := by
      have : n - n = 0 := by omega
      rw [this]
      rfl
    simp only [List.enumFrom, List.filter_cons]
    by_cases hpa : config.similarity_threshold ≤ a
    · rw [if_pos (by simpa using hpa)]
      unfold validateCandidates
      rw [List.filterMap_cons]
      dsimp only
      by_cases hsb : config.similarity_threshold * (8/10) ≤ s.getD n 0
      · rw [if_pos hsb, if_pos (by rw [hzero]; exact ⟨hpa, hsb⟩)]
        rw [hzero]
        rw [htail, ← ih (n + 1)]
        rfl
      · rw [if_neg hsb, if_neg (by rw [hzero]; exact fun h => hsb h.2)]
        rw [htail, ← ih (n + 1)]
        rfl
    · rw [if_neg (by simpa using hpa)]
      rw [if_neg (by rw [hzero]; exact fun h => hpa h.1)]
      rw [htail, ← ih (n + 1)]

theorem validate_primary_eq_spec (config : SimilarityConfig)
    (p s : List ℚ) :
    validateCandidates config s (primaryCandidates config p) =
      validatedCandidatesSpec config p s := by
  unfold primaryCandidates validatedCandidatesSpec
  rw [show p.enum = p.enumFrom 0 from rfl, validate_enumFrom config s p 0,
    List.range_eq_range' p.length]
  apply List.filterMap_congr
  intro idx _
  simp

/-- C6: in the similarity matcher, secondary validation runs exactly when
`require_multiple_matches` is on, the candidate text has at least 200
characters, and the widened n-gram window
`[max(1, ngram_min - 1), min(5, ngram_max + 1)]` differs from the
configured one; in that case the returned matches are exactly the
candidates that passed the primary threshold and whose secondary cosine
score is at least `0.8 × similarity_threshold`, each reported with the
arithmetic mean of its primary and secondary scores (then sorted by score
descending and truncated to 5); otherwise the primary candidates pass
through unvalidated. -/
theorem secondary_validation_spec (config : SimilarityConfig) (len : ℕ)
    (p s : List ℚ) (ids : List ℕ) :
    (validationApplies config len = true ↔
      (config.require_multiple_matches = true ∧ 200 ≤ len ∧
        (secondaryNgramMin config ≠ config.ngram_range_min ∨
          secondaryNgramMax config ≠ config.ngram_range_max))) ∧
    (validationApplies config len = true →
      computeSimilarityWithValidation config len p s ids =
        (sortByScoreDesc ((validatedCandidatesSpec config p s).map
          (fun c => (ids.getD c.1 0, c.2, getMatchType config c.2)))).take 5) ∧
    (validationApplies config len = false →
      computeSimilarityWithValidation config len p s ids =
        (sortByScoreDesc ((primaryCandidates config p).map
          (fun c => (ids.getD c.1 0, c.2, getMatchType config c.2)))).take 5) := by
  refine ⟨?_, ?_, ?_⟩
  · unfold validationApplies
    simp [Bool.and_eq_true, Bool.or_eq_true, and_assoc]
  · intro hgate
    simp only [computeSimilarityWithValidation, hgate, if_true]
    split
    · rename_i he
      have he2 : primaryCandidates config p = [] := List.isEmpty_iff.mp he
      rw [← validate_primary_eq_spec config p s, he2]
      rfl
    · rw [← validate_primary_eq_spec config p s]
  · intro hgate
    simp only [computeSimilarityWithValidation, hgate, if_false]
    split
    · rename_i he
      have he2 : primaryCandidates config p = [] := List.isEmpty_iff.mp he
      rw [he2]
      rfl
    · rfl

/-- C6 witness: the default medium preset with a 200-character candidate
passes the gate, and the theorem yields the validated-candidate
characterization of the output. -/
theorem secondary_validation_spec_witness :
    validationApplies {} 200 = true ∧
    computeSimilarityWithValidation {} 200 [65/100] [52/100] [7] =
      (sortByScoreDesc ((validatedCandidatesSpec {} [65/100] [52/100]).map
        (fun c => ([7].getD c.1 0, c.2, getMatchType {} c.2)))).take 5 :=
  ⟨by decide,
    (secondary_validation_spec {} 200 [65/100] [52/100] [7]).2.1 (by decide)⟩

theorem updateFirstByPath_none_iff (path file_hash : String)
    (v : Option (List ℕ)) (m : ℚ) (now : ℕ) :
    ∀ (fs : List IndexedFileRow),
      updateFirstByPath path file_hash v m now fs = none ↔
        ∀ r ∈ fs, ¬(r.path = path) := by
  intro fs
  induction fs with
  | nil => simp [updateFirstByPath]
  | cons r rs ih =>
    simp only [updateFirstByPath]
    by_cases hr : r.path = path
    · rw [if_pos hr]
      simp [hr]
    · rw [if_neg hr]
      simp only [Option.map_eq_none', ih, List.mem_cons]
      constructor
      · rintro h a (rfl | ha)
        · exact hr
        · exact h a ha
      · intro h a ha
        exact h a (Or.inr ha)

theorem updateFirstByPath_some_spec (path file_hash : String)
    (v : Option (List ℕ)) (m : ℚ) (now : ℕ) :
    ∀ (fs : List IndexedFileRow) (r2 : IndexedFileRow)
      (fs2 : List IndexedFileRow),
      updateFirstByPath path file_hash v m now fs = some (r2, fs2) →
      r2.path = path ∧ r2.file_hash = file_hash ∧ r2.vector = v ∧
      r2.last_modified = m ∧ r2.indexed_at = now ∧
      fs2.length = fs.length ∧
      fs2.find? (fun r => r.path = path) = some r2 ∧
      (fs2.filter (fun r => r.path = path)).length =
        (fs.filter (fun r => r.path = path)).length := by
  intro fs
  induction fs with
  | nil => intro r2 fs2 h; cases h
  | cons r rs ih =>
    intro r2 fs2 h
    simp only [updateFirstByPath] at h
    by_cases hr : r.path = path
    · rw [if_pos hr] at h
      injection h with h2
      injection h2 with h3 h4
      subst h3
      subst h4
      refine ⟨hr, rfl, rfl, rfl, rfl, rfl, ?_, ?_⟩
      · rw [List.find?_cons_of_pos _ (by simp [hr])]
      · rw [List.filter_cons_of_pos (by simp [hr]),
          List.filter_cons_of_pos (by simp [hr])]
        simp
    · rw [if_neg hr] at h
      rcases hq : updateFirstByPath path file_hash v m now rs with _ | ⟨q1, q2⟩
      · rw [hq] at h; cases h
      · rw [hq, Option.map_some'] at h
        injection h with h2
        injection h2 with h3 h4
        subst h3
        subst h4
        obtain ⟨p1, p2, p3, p4, p5, p6, p7, p8⟩ := ih q1 q2 hq
        refine ⟨p1, p2, p3, p4, p5, by simp [p6], ?_, ?_⟩
        · rw [List.find?_cons_of_neg _ (by simp [hr])]
          exact p7
        · rw [List.filter_cons_of_neg (by simp [hr]),
            List.filter_cons_of_neg (by simp [hr])]
          exact p8

theorem pairwise_filter_le_one (p : String) :
    ∀ (fs : List IndexedFileRow),
      fs.Pairwise (fun a b => a.path ≠ b.path) →
      (fs.filter (fun r => r.path = p)).length ≤ 1 := by
  intro fs h
  induction fs with
  | nil => simp
  | cons r rs ih =>
    rw [List.pairwise_cons] at h
    by_cases hr : r.path = p
    · rw [List.filter_cons_of_pos (by simp [hr])]
      have hnil : rs.filter (fun q => q.path = p) = [] := by
        rw [List.filter_eq_nil_iff]
        intro a ha
        simp only [decide_eq_true_eq]
        intro hap
        exact h.1 a ha (by rw [hr, hap])
      rw [hnil]
      simp
    · rw [List.filter_cons_of_neg (by simp [hr])]
      exact ih h.2

theorem find?_append_of_none {α : Type} (pred : α → Bool)
    (l1 l2 : List α) (h : ∀ a ∈ l1, ¬(pred a = true)) :
    (l1 ++ l2).find? pred = l2.find? pred := by
  induction l1 with
  | nil => rfl
  | cons a as ih =>
    rw [List.cons_append, List.find?_cons_of_neg _ (h a (by simp))]
    exact ih (fun b hb => h b (by simp [hb]))

theorem addOrUpdate_now (db : SQLiteDB) (p f h : String)
    (v : Option (List ℕ)) (m : ℚ) :
    ((addOrUpdateIndexedFile db p f h v m).2).now = db.now + 1 := by
  unfold addOrUpdateIndexedFile
  split <;> rfl

theorem addOrUpdate_get (db : SQLiteDB) (p f h : String)
    (v : Option (List ℕ)) (m : ℚ) :
    getIndexedFileByPath (addOrUpdateIndexedFile db p f h v m).2 p =
      some (addOrUpdateIndexedFile db p f h v m).1 ∧
    (addOrUpdateIndexedFile db p f h v m).1.file_hash = h ∧
    (addOrUpdateIndexedFile db p f h v m).1.vector = v ∧
    (addOrUpdateIndexedFile db p f h v m).1.last_modified = m ∧
    (addOrUpdateIndexedFile db p f h v m).1.indexed_at = db.now := by
  unfold addOrUpdateIndexedFile getIndexedFileByPath
  rcases hq : updateFirstByPath p h v m db.now db.files with _ | ⟨q1, q2⟩ <;>
    dsimp only
  · have hnone := (updateFirstByPath_none_iff p h v m db.now db.files).mp hq
    rw [find?_append_of_none _ db.files _ (by intro a ha; simp [hnone a ha])]
    rw [List.find?_cons_of_pos _ (by simp)]
    exact ⟨rfl, rfl, rfl, rfl, rfl⟩
  · obtain ⟨p1, p2, p3, p4, p5, -, p7, -⟩ :=
      updateFirstByPath_some_spec p h v m db.now db.files q1 q2 hq
    exact ⟨p7, p2, p3, p4, p5⟩

theorem addOrUpdate_filter_count (db : SQLiteDB) (p f h : String)
    (v : Option (List ℕ)) (m : ℚ)
    (hle : (db.files.filter (fun r => r.path = p)).length ≤ 1) :
    (((addOrUpdateIndexedFile db p f h v m).2).files.filter
      (fun r => r.path = p)).length = 1 := by
  unfold addOrUpdateIndexedFile
  rcases hq : updateFirstByPath p h v m db.now db.files with _ | ⟨q1, q2⟩ <;>
    dsimp only
  · have hnone := (updateFirstByPath_none_iff p h v m db.now db.files).mp hq
    have hfl : db.files.filter (fun r => r.path = p) = [] := by
      rw [List.filter_eq_nil_iff]
      intro a ha
      simp [hnone a ha]
    rw [List.filter_append, hfl, List.filter_cons_of_pos (by simp)]
    simp
  · obtain ⟨-, -, -, -, -, -, p7, p8⟩ :=
      updateFirstByPath_some_spec p h v m db.now db.files q1 q2 hq
    rw [p8]
    have hge : 1 ≤ (db.files.filter (fun r => r.path = p)).length := by
      by_contra hlt
      have hempty : db.files.filter (fun r => r.path = p) = [] := by
        cases hfe : db.files.filter (fun r => r.path = p)
        · rfl
        · rw [hfe] at hlt
          simp at hlt
      have : updateFirstByPath p h v m db.now db.files = none := by
        rw [updateFirstByPath_none_iff]
        intro r hr hrp
        have : r ∈ db.files.filter (fun q => q.path = p) :=
          List.mem_filter.mpr ⟨hr, by simp [hrp]⟩
        rw [hempty] at this
        cases this
      rw [this] at hq
      cases hq
    omega

theorem addOrUpdate_count (db : SQLiteDB) (p f h : String)
    (v : Option (List ℕ)) (m : ℚ) :
    countIndexedFiles (addOrUpdateIndexedFile db p f h v m).2 =
      countIndexedFiles db +
        (if (getIndexedFileByPath db p).isSome = true then 0 else 1) := by
  unfold addOrUpdateIndexedFile countIndexedFiles getIndexedFileByPath
  rcases hq : updateFirstByPath p h v m db.now db.files with _ | ⟨q1, q2⟩ <;>
    dsimp only
  · have hnone := (updateFirstByPath_none_iff p h v m db.now db.files).mp hq
    have hf : db.files.find? (fun r => r.path = p) = none := by
      rw [List.find?_eq_none]
      intro a ha
      simp [hnone a ha]
    rw [hf]
    simp
  · obtain ⟨-, -, -, -, -, p6, -, -⟩ :=
      updateFirstByPath_some_spec p h v m db.now db.files q1 q2 hq
    have hex : ∃ r ∈ db.files, r.path = p := by
      by_contra hno
      push_neg at hno
      have : updateFirstByPath p h v m db.now db.files = none := by
        rw [updateFirstByPath_none_iff]
        exact hno
      rw [this] at hq
      cases hq
    obtain ⟨r, hr, hrp⟩ := hex
    have hf : (db.files.find? (fun q => q.path = p)).isSome = true := by
      rcases hfe : db.files.find? (fun q => q.path = p) with _ | q
      · rw [List.find?_eq_none] at hfe
        exact absurd (by simp [hrp]) (hfe r hr)
      · rw [hfe]
        rfl
    rw [hf]
    simp [p6]

/-- C7: upsert is idempotent on path. From any store whose rows have
pairwise distinct paths, upserting the same path twice (with possibly
different digests, vectors and mtimes) leaves exactly one row for that
path; the total count grows by one only if the path was absent initially;
and a subsequent lookup by path returns the digest, vector and mtime of the
second upsert together with an `indexed_at` refreshed by the second upsert
(one tick after the first upsert, whose row carried the earlier tick). -/
theorem upsert_idempotent_on_path (db : SQLiteDB) (p f1 f2 h1 h2 : String)
    (v1 v2 : Option (List ℕ)) (m1 m2 : ℚ)
    (hpw : db.files.Pairwise (fun a b => a.path ≠ b.path)) :
    (((addOrUpdateIndexedFile (addOrUpdateIndexedFile db p f1 h1 v1 m1).2
        p f2 h2 v2 m2).2).files.filter (fun r => r.path = p)).length = 1 ∧
    (∃ r, getIndexedFileByPath (addOrUpdateIndexedFile
        (addOrUpdateIndexedFile db p f1 h1 v1 m1).2 p f2 h2 v2 m2).2 p =
          some r ∧
      r.file_hash = h2 ∧ r.vector = v2 ∧ r.last_modified = m2 ∧
      r.indexed_at = db.now + 1) ∧
    (addOrUpdateIndexedFile db p f1 h1 v1 m1).1.indexed_at = db.now ∧
    countIndexedFiles (addOrUpdateIndexedFile
        (addOrUpdateIndexedFile db p f1 h1 v1 m1).2 p f2 h2 v2 m2).2 =
      countIndexedFiles db +
        (if (getIndexedFileByPath db p).isSome = true then 0 else 1) := by
  obtain ⟨g1, g2, g3, g4, g5⟩ :=
    addOrUpdate_get (addOrUpdateIndexedFile db p f1 h1 v1 m1).2 p f2 h2 v2 m2
  refine ⟨?_, ⟨_, g1, g2, g3, g4, ?_⟩, (addOrUpdate_get db p f1 h1 v1 m1).2.2.2.2, ?_⟩
  · apply addOrUpdate_filter_count
    rw [addOrUpdate_filter_count db p f1 h1 v1 m1 (pairwise_filter_le_one p db.files hpw)]
  · rw [g5, addOrUpdate_now]
  · rw [addOrUpdate_count, addOrUpdate_count]
    have hsome : (getIndexedFileByPath
        (addOrUpdateIndexedFile db p f1 h1 v1 m1).2 p).isSome = true := by
      rw [(addOrUpdate_get db p f1 h1 v1 m1).1]
      rfl
    rw [hsome]
    simp

/-- C7 witness: the theorem applied to the empty store, matching the spec
scenario of upserting one path twice with differing digests. -/
theorem upsert_idempotent_on_path_witness :
    (((addOrUpdateIndexedFile (addOrUpdateIndexedFile {} "/x/y" "y" "d1"
        none 1).2 "/x/y" "y" "d2" (some [9]) 2).2).files.filter
          (fun r => r.path = "/x/y")).length = 1 ∧
    (∃ r, getIndexedFileByPath (addOrUpdateIndexedFile
        (addOrUpdateIndexedFile {} "/x/y" "y" "d1" none 1).2 "/x/y" "y" "d2"
          (some [9]) 2).2 "/x/y" = some r ∧
      r.file_hash = "d2" ∧ r.vector = some [9] ∧ r.last_modified = 2 ∧
      r.indexed_at = ({} : SQLiteDB).now + 1) ∧
    (addOrUpdateIndexedFile {} "/x/y" "y" "d1" none 1).1.indexed_at =
      ({} : SQLiteDB).now ∧
    countIndexedFiles (addOrUpdateIndexedFile
        (addOrUpdateIndexedFile {} "/x/y" "y" "d1" none 1).2 "/x/y" "y" "d2"
          (some [9]) 2).2 =
      countIndexedFiles ({} : SQLiteDB) +
        (if (getIndexedFileByPath {} "/x/y").isSome = true then 0 else 1) :=
  upsert_idempotent_on_path {} "/x/y" "y" "y" "d1" "d2" none (some [9]) 1 2
    List.Pairwise.nil

theorem basename_foldl_no_slash :
    ∀ (cs : List Char) (acc : List Char), (∀ c ∈ acc, c ≠ '/') →
      ∀ c ∈ cs.foldl (fun a ch => if ch = '/' then [] else a ++ [ch]) acc,
        c ≠ '/' := by
  intro cs
  induction cs with
  | nil => intro acc hacc c hc; exact hacc c hc
  | cons d ds ih =>
    intro acc hacc c hc
    rw [List.foldl_cons] at hc
    by_cases hd : d = '/'
    · rw [if_pos hd] at hc
      exact ih [] (by simp) c hc
    · rw [if_neg hd] at hc
      refine ih (acc ++ [d]) ?_ c hc
      intro e he
      rcases List.mem_append.mp he with he | he
      · exact hacc e he
      · rw [List.mem_singleton.mp he]
        exact hd

theorem foldl_no_slash_id :
    ∀ (cs : List Char) (acc : List Char), (∀ c ∈ cs, c ≠ '/') →
      cs.foldl (fun a ch => if ch = '/' then [] else a ++ [ch]) acc =
        acc ++ cs := by
  intro cs
  induction cs with
  | nil => intro acc _; simp
  | cons d ds ih =>
    intro acc hno
    rw [List.foldl_cons, if_neg (hno d (by simp)),
      ih (acc ++ [d]) (fun c hc => hno c (by simp [hc]))]
    simp

theorem basenameOf_idem (p : String) :
    basenameOf (basenameOf p) = basenameOf p := by
  unfold basenameOf
  have hno := basename_foldl_no_slash p.toList [] (by simp)
  rw [show (String.mk (p.toList.foldl
      (fun a ch => if ch = '/' then [] else a ++ [ch]) [])).toList =
      p.toList.foldl (fun a ch => if ch = '/' then [] else a ++ [ch]) []
      from rfl]
  rw [foldl_no_slash_id _ [] hno]
  rfl

/-- C8: `should_ignore` returns true iff some configured pattern matches
the basename, where matching is the case-sensitive POSIX glob of `fnmatch`;
any pattern containing no wildcard meta-character (no star and no question
mark) additionally matches the basename case-insensitively. Matching
considers only the basename, never the full path: the result on any path
equals the result on its basename. -/
theorem should_ignore_spec (cfg : IgnoredFilesConfig) (filename : String) :
    (shouldIgnore cfg filename = true ↔
      ∃ pat ∈ cfg.patterns,
        (fnmatchStr (basenameOf filename) pat = true ∨
          (pat.toList.contains '*' = false ∧ pat.toList.contains '?' = false ∧
            pyLower (basenameOf filename) = pyLower pat))) ∧
    shouldIgnore cfg filename = shouldIgnore cfg (basenameOf filename) := by
  constructor
  · unfold shouldIgnore
    by_cases he : cfg.patterns.isEmpty
    · rw [if_pos he]
      have h0 : cfg.patterns = [] := List.isEmpty_iff.mp he
      simp [h0]
    · rw [if_neg he]
      rw [List.any_eq_true]
      constructor
      · rintro ⟨pat, hpat, hp⟩
        simp only [Bool.or_eq_true, Bool.and_eq_true, Bool.not_eq_true',
          beq_iff_eq] at hp
        exact ⟨pat, hpat, by tauto⟩
      · rintro ⟨pat, hpat, hp⟩
        refine ⟨pat, hpat, ?_⟩
        simp only [Bool.or_eq_true, Bool.and_eq_true, Bool.not_eq_true',
          beq_iff_eq]
        tauto
  · simp only [shouldIgnore]
    rw [basenameOf_idem]

end Codescan
